import Mathlib

/-
  Verification development for the github-mcp server (src/index.js).

  The server is embedded shallowly: JavaScript runtime values become the
  inductive `JsValue`; JavaScript objects become association lists keyed by
  strings (unique keys in practice, first-occurrence semantics here, matching
  `Map.set` / object-literal update); the `fetch`-based upstream client and
  the environment (clock, base64, URL encoding) are injected through a
  `World` record; rejected promises / thrown exceptions become
  `Except String` with the exception's message string.
-/

set_option maxHeartbeats 1000000
set_option maxRecDepth 10000

namespace GithubMcp

/-- JavaScript-like runtime values, used for tool-call arguments, request
bodies, and parsed JSON response payloads. -/
inductive JsValue : Type where
  | vNull : JsValue
  | vUndefined : JsValue
  | vBool : Bool → JsValue
  | vNum : Int → JsValue
  | vStr : String → JsValue
  | vArr : List JsValue → JsValue
  | vObj : List (String × JsValue) → JsValue
deriving Repr

/-- JavaScript truthiness: `null`, `undefined`, `false`, `0` and `""` are
falsy; every object and array is truthy. -/
def truthy : JsValue → Bool
  | .vNull => false
  | .vUndefined => false
  | .vBool b => b
  | .vNum n => decide (n ≠ 0)
  | .vStr s => decide (s ≠ "")
  | .vArr _ => true
  | .vObj _ => true

/-- The JavaScript `.length` property: defined for strings and arrays,
`undefined` (here `none`) for every other value. -/
def jsLength : JsValue → Option Nat
  | .vStr s => some s.length
  | .vArr xs => some xs.length
  | _ => none

mutual

/-- JavaScript string coercion (as used by template literals). Array
elements are joined with commas; plain objects print as `[object Object]`. -/
def jsToStr : JsValue → String
  | .vNull => "null"
  | .vUndefined => "undefined"
  | .vBool true => "true"
  | .vBool false => "false"
  | .vNum n => toString n
  | .vStr s => s
  | .vArr xs => String.intercalate "," (jsToStrList xs)
  | .vObj _ => "[object Object]"

/-- String coercion of each element of a list of values. -/
def jsToStrList : List JsValue → List String
  | [] => []
  | x :: xs => jsToStr x :: jsToStrList xs

end

/-- Minimal JSON string escaping (quotes and backslashes). -/
def jsonEscapeChar (c : Char) : String :=
  if c = '"' then "\\\"" else if c = '\\' then "\\\\" else String.singleton c

/-- Escape a string for inclusion in JSON output. -/
def jsonEscape (s : String) : String :=
  String.join (s.toList.map jsonEscapeChar)

mutual

/-- Model of `JSON.stringify` (the 2-space pretty-printing indentation of
`JSON.stringify(v, null, 2)` is not reproduced; only the serialized value
matters to the envelope contract). `undefined` at the top level is rendered
as the string "undefined" to keep the model total. -/
def jsonStringify : JsValue → String
  | .vNull => "null"
  | .vUndefined => "undefined"
  | .vBool true => "true"
  | .vBool false => "false"
  | .vNum n => toString n
  | .vStr s => "\"" ++ jsonEscape s ++ "\""
  | .vArr xs => "[" ++ String.intercalate "," (jsonStringifyList xs) ++ "]"
  | .vObj fs => "\x7b" ++ String.intercalate "," (jsonStringifyFields fs) ++ "\x7d"

/-- Serialization of array elements. -/
def jsonStringifyList : List JsValue → List String
  | [] => []
  | x :: xs => jsonStringify x :: jsonStringifyList xs

/-- Serialization of object fields. -/
def jsonStringifyFields : List (String × JsValue) → List String
  | [] => []
  | (k, v) :: fs => ("\"" ++ jsonEscape k ++ "\":" ++ jsonStringify v) :: jsonStringifyFields fs

end

/-! ### Association lists

JavaScript objects and `Map`s are modelled as association lists. Keys are
unique in every object the program builds, so `assocSet` (the semantics of
both `obj.k = v` and `Map.prototype.set`) is modelled as: replace the value
of every binding of the key, or append a new binding if the key is absent.
On unique-key lists this coincides with the JavaScript behavior. -/

/-- Lookup of the first binding of a key. -/
def assocGet {β : Type} : List (String × β) → String → Option β
  | [], _ => none
  | (k2, v) :: rest, k => if k2 = k then some v else assocGet rest k

/-- Presence test, as in `Map.prototype.has` / the `in` operator. -/
def assocHas {β : Type} (m : List (String × β)) (k : String) : Bool :=
  (assocGet m k).isSome

/-- Replace the value of one entry when its key matches. -/
def replAt {β : Type} (k : String) (v : β) (p : String × β) : String × β :=
  if p.1 = k then (k, v) else p

/-- Update a key's bindings, or append the binding if the key is absent. -/
def assocSet {β : Type} (m : List (String × β)) (k : String) (v : β) :
    List (String × β) :=
  if assocHas m k then m.map (replAt k v) else m ++ [(k, v)]

/-- Remove every binding of a key, as in `Map.prototype.delete` for maps
with unique keys. -/
def assocDelete {β : Type} (m : List (String × β)) (k : String) : List (String × β) :=
  m.filter (fun p => decide (p.1 ≠ k))

/-- The keys of an association list. -/
def assocKeys {β : Type} (m : List (String × β)) : List String :=
  m.map Prod.fst

/-! ### Argument sanitization (src/index.js, `sanitizeArgs`, lines 51-61) -/

/-- An argument mapping (the `arguments` object of a call request). -/
abbrev ArgMap := List (String × JsValue)

/-- The condition `sanitized.content && sanitized.content.length > 200`:
the field is truthy and its `.length` exists and exceeds 200. -/
def contentTooLong (c : JsValue) : Bool :=
  truthy c && (match jsLength c with
    | some n => decide (n > 200)
    | none => false)

/-- The length indicator substituted for an over-long `content` field. -/
def lengthIndicator (c : JsValue) : JsValue :=
  .vStr ("[" ++ toString ((jsLength c).getD 0) ++ " chars]")

/-- Lines 55-57 of the source: `sanitized.content` reads as `undefined`
when absent; a truthy over-long value is replaced with its length
indicator. -/
def sanitizeContent (args : ArgMap) : ArgMap :=
  let c := (assocGet args "content").getD .vUndefined
  if contentTooLong c then assocSet args "content" (lengthIndicator c) else args

/-- Lines 58-59 of the source: `if (sanitized.k) sanitized.k =
'[REDACTED]'` for a credential-like field `k` (an absent field reads as
`undefined`, which is falsy). -/
def redactField (args : ArgMap) (k : String) : ArgMap :=
  if truthy ((assocGet args k).getD .vUndefined) then assocSet args k (.vStr "[REDACTED]")
  else args

/-- The body of `sanitizeArgs` for a present argument object: shallow copy,
then the `content` step, the `token` step, and the `password` step in
source order. -/
def sanitizeMap (args : ArgMap) : ArgMap :=
  redactField (redactField (sanitizeContent args) "token") "password"

/-- `sanitizeArgs(args)`: returns the input itself when it is absent
(`if (!args) return args`), otherwise the sanitized shallow copy. -/
def sanitizeArgs : Option ArgMap → Option ArgMap
  | none => none
  | some args => some (sanitizeMap args)

/-! ### JavaScript property access -/

/-- Property read `v.p`: throws a TypeError on `null`/`undefined` (the
thrown message is abridged), yields the bound value or `undefined` on an
object, and `undefined` on every other value. -/
def jsGetProp : JsValue → String → Except String JsValue
  | .vNull, p => .error ("Cannot read properties of null reading " ++ p)
  | .vUndefined, p => .error ("Cannot read properties of undefined reading " ++ p)
  | .vObj fs, p => .ok ((assocGet fs p).getD .vUndefined)
  | _, _ => .ok .vUndefined

/-- Property write `v.p = x` in strict mode: works on objects, throws a
TypeError on every other value. -/
def jsSetProp : JsValue → String → JsValue → Except String JsValue
  | .vObj fs, p, x => .ok (.vObj (assocSet fs p x))
  | .vNull, p, _ => .error ("Cannot set properties of null setting " ++ p)
  | .vUndefined, p, _ => .error ("Cannot set properties of undefined setting " ++ p)
  | _, p, _ => .error ("Cannot create property " ++ p ++ " on a primitive")

/-- JavaScript default-parameter semantics: the default applies exactly
when the supplied argument is `undefined`. -/
def defOr (v d : JsValue) : JsValue :=
  match v with
  | .vUndefined => d
  | _ => v

/-! ### Upstream client (src/index.js, `githubRequest`, lines 70-100)

The network, the clock and Node's `Buffer`/`URLSearchParams` encodings are
injected through a `World`, mirroring how the code reads them from its
environment. `fetch` is a function from (endpoint, method, body) to the
upstream's response; `body` of the response models the outcome of
`response.json()` (which can itself reject on a malformed body). -/

/-- The upstream's response as observed by the code: HTTP status, status
text, and the result of parsing the body as JSON. -/
structure FetchResp where
  status : Nat
  statusText : String
  body : Except String JsValue

/-- One issued upstream HTTP request (endpoint, method, body). -/
structure FetchCall where
  endpoint : String
  method : String
  body : Option JsValue

/-- The injected environment: credential, upstream responder, clock and
encoding primitives. -/
structure World where
  token : String
  fetch : String → String → Option JsValue → FetchResp
  now : String
  b64encode : String → String
  b64decode : String → String
  urlencode : String → String

/-- The outcome of a handler fragment: a fulfilled value or the message of
a rejected promise, together with the list of upstream requests issued. -/
abbrev GhRes (α : Type) := Except String α × List FetchCall

/-- Sequencing of handler fragments (await): a rejection short-circuits,
issued requests accumulate. -/
def ghBind {α β : Type} (x : GhRes α) (f : α → GhRes β) : GhRes β :=
  match x with
  | (.error e, cs) => (.error e, cs)
  | (.ok a, cs) => ((f a).1, cs ++ (f a).2)

/-- A fulfilled fragment issuing no request. -/
def ghOk {α : Type} (a : α) : GhRes α := (.ok a, [])

/-- A rejected fragment issuing no request. -/
def ghFail {α : Type} (e : String) : GhRes α := (.error e, [])

/-- `githubRequest(endpoint, method, body)`: fails without issuing a
request when the credential is absent; issues one `fetch`; returns the
fixed `{success: true}` object on 204; on a non-ok status throws an error
carrying `error.message || "GitHub API error: <status>"` where `error` is
the parsed body, or `{message: statusText}` when the body fails to parse;
otherwise returns the parsed JSON body (a parse rejection propagates). -/
def githubRequest (w : World) (endpoint : String) (method : String)
    (body : Option JsValue) : GhRes JsValue :=
  if w.token = "" then
    (.error "GITHUB_TOKEN environment variable is not set", [])
  else
    let resp := w.fetch endpoint method body
    let calls := [FetchCall.mk endpoint method body]
    if resp.status = 204 then
      (.ok (.vObj [("success", .vBool true)]), calls)
    else if ¬ (200 ≤ resp.status ∧ resp.status < 300) then
      let errVal := match resp.body with
        | .ok v => v
        | .error _ => .vObj [("message", .vStr resp.statusText)]
      match jsGetProp errVal "message" with
      | .error e => (.error e, calls)
      | .ok msg =>
          (.error (if truthy msg then jsToStr msg
                   else "GitHub API error: " ++ toString resp.status), calls)
    else
      (resp.body, calls)

/-! ### GitHub operation handlers (src/index.js, lines 102-315) -/

/-- `githubGetUser()`. -/
def githubGetUser (w : World) : GhRes JsValue :=
  githubRequest w "/user" "GET" none

/-- `githubVerifyToken()`: the whole body sits inside `try`/`catch`, so the
function always fulfills, with `{valid: true, user: {...}}` on lookup
success and `{valid: false, error: message}` on any failure. -/
def githubVerifyToken (w : World) : JsValue × List FetchCall :=
  let r := githubGetUser w
  match r.1 with
  | .error e => (.vObj [("valid", .vBool false), ("error", .vStr e)], r.2)
  | .ok user =>
    match (do
      let login ← jsGetProp user "login"
      let nm ← jsGetProp user "name"
      let em ← jsGetProp user "email"
      let av ← jsGetProp user "avatar_url"
      Except.ok (JsValue.vObj [("valid", .vBool true),
        ("user", .vObj [("login", login), ("name", nm), ("email", em),
                        ("avatar_url", av)])])) with
    | .ok v => (v, r.2)
    | .error e => (.vObj [("valid", .vBool false), ("error", .vStr e)], r.2)

/-- `githubListRepositories(sort = 'updated', perPage = 30)`. -/
def githubListRepositories (w : World) (sort perPage : JsValue) : GhRes JsValue :=
  let sort := defOr sort (.vStr "updated")
  let perPage := defOr perPage (.vNum 30)
  githubRequest w ("/user/repos?sort=" ++ jsToStr sort ++ "&per_page=" ++ jsToStr perPage)
    "GET" none

/-- `githubGetRepository(owner, repo)`. -/
def githubGetRepository (w : World) (owner repo : JsValue) : GhRes JsValue :=
  githubRequest w ("/repos/" ++ jsToStr owner ++ "/" ++ jsToStr repo) "GET" none

/-- `githubCreateRepository(name, description = '', isPrivate = false,
autoInit = true)`. -/
def githubCreateRepository (w : World) (name description isPrivate autoInit : JsValue) :
    GhRes JsValue :=
  let description := defOr description (.vStr "")
  let isPrivate := defOr isPrivate (.vBool false)
  let autoInit := defOr autoInit (.vBool true)
  githubRequest w "/user/repos" "POST"
    (some (.vObj [("name", name), ("description", description),
      ("private", isPrivate), ("auto_init", autoInit)]))

/-- `githubDeleteRepository(owner, repo)`. -/
def githubDeleteRepository (w : World) (owner repo : JsValue) : GhRes JsValue :=
  githubRequest w ("/repos/" ++ jsToStr owner ++ "/" ++ jsToStr repo) "DELETE" none

/-- `Buffer.from(x).toString('base64')` as used on file contents: encodes a
string; any other value is modelled as a TypeError (abridged message). -/
def bufferB64 (w : World) : JsValue → Except String String
  | .vStr s => .ok (w.b64encode s)
  | v => .error ("The first argument must be of type string, received " ++ jsToStr v)

/-- `githubGetFileContents(owner, repo, path, ref = 'main')`: fetches the
content record and, when `data.content` is truthy and `data.encoding` is
`'base64'`, attaches `decodedContent`. -/
def githubGetFileContents (w : World) (owner repo path ref : JsValue) : GhRes JsValue :=
  let ref := defOr ref (.vStr "main")
  ghBind (githubRequest w ("/repos/" ++ jsToStr owner ++ "/" ++ jsToStr repo ++
      "/contents/" ++ jsToStr path ++ "?ref=" ++ jsToStr ref) "GET" none) fun data =>
    match jsGetProp data "content" with
    | .error e => ghFail e
    | .ok c =>
      if truthy c then
        match jsGetProp data "encoding" with
        | .error e => ghFail e
        | .ok enc =>
          match enc with
          | .vStr s =>
            if s = "base64" then
              match jsSetProp data "decodedContent" (.vStr (w.b64decode (jsToStr c))) with
              | .error e => ghFail e
              | .ok data2 => ghOk data2
            else ghOk data
          | _ => ghOk data
      else ghOk data

/-- `githubCreateOrUpdateFile(owner, repo, path, content, message,
branch = 'main', sha = null)`: base64-encodes the content, adds `sha` to
the body only when truthy. -/
def githubCreateOrUpdateFile (w : World)
    (owner repo path content message branch sha : JsValue) : GhRes JsValue :=
  let branch := defOr branch (.vStr "main")
  let sha := defOr sha .vNull
  match bufferB64 w content with
  | .error e => ghFail e
  | .ok enc =>
    let body0 := [("message", message), ("content", JsValue.vStr enc), ("branch", branch)]
    let bodyFields := if truthy sha then body0 ++ [("sha", sha)] else body0
    githubRequest w ("/repos/" ++ jsToStr owner ++ "/" ++ jsToStr repo ++
      "/contents/" ++ jsToStr path) "PUT" (some (.vObj bodyFields))

/-- `githubDeleteFile(owner, repo, path, message, sha, branch = 'main')`. -/
def githubDeleteFile (w : World) (owner repo path message sha branch : JsValue) :
    GhRes JsValue :=
  let branch := defOr branch (.vStr "main")
  githubRequest w ("/repos/" ++ jsToStr owner ++ "/" ++ jsToStr repo ++
    "/contents/" ++ jsToStr path) "DELETE"
    (some (.vObj [("message", message), ("sha", sha), ("branch", branch)]))

/-- The per-file blob creation of `githubPushFiles` (the `Promise.all` over
`files.map(...)`, modelled sequentially in array order). -/
def pushBlobs (w : World) (owner repo : JsValue) : List JsValue → GhRes (List JsValue)
  | [] => ghOk []
  | f :: rest =>
    match jsGetProp f "content" with
    | .error e => ghFail e
    | .ok fcontent =>
      ghBind (githubRequest w ("/repos/" ++ jsToStr owner ++ "/" ++ jsToStr repo ++
          "/git/blobs") "POST"
          (some (.vObj [("content", fcontent), ("encoding", .vStr "utf-8")]))) fun blobData =>
        match (do
          let sha ← jsGetProp blobData "sha"
          let p ← jsGetProp f "path"
          Except.ok (p, sha)) with
        | .error e => ghFail e
        | .ok ps =>
          ghBind (pushBlobs w owner repo rest) fun restItems =>
            ghOk (JsValue.vObj [("path", ps.1), ("mode", .vStr "100644"),
              ("type", .vStr "blob"), ("sha", ps.2)] :: restItems)

/-- `githubPushFiles(owner, repo, files, message, branch = 'main')`: ref →
commit → blobs → tree → commit → ref update, in source order. -/
def githubPushFiles (w : World) (owner repo files message branch : JsValue) :
    GhRes JsValue :=
  let branch := defOr branch (.vStr "main")
  let base := "/repos/" ++ jsToStr owner ++ "/" ++ jsToStr repo
  ghBind (githubRequest w (base ++ "/git/ref/heads/" ++ jsToStr branch) "GET" none)
    fun refData =>
  match (do
    let ob ← jsGetProp refData "object"
    jsGetProp ob "sha") with
  | .error e => ghFail e
  | .ok currentCommitSha =>
  ghBind (githubRequest w (base ++ "/git/commits/" ++ jsToStr currentCommitSha) "GET" none)
    fun commitData =>
  match (do
    let t ← jsGetProp commitData "tree"
    jsGetProp t "sha") with
  | .error e => ghFail e
  | .ok baseTreeSha =>
  match files with
  | .vArr fileList =>
    ghBind (pushBlobs w owner repo fileList) fun treeItems =>
    ghBind (githubRequest w (base ++ "/git/trees") "POST"
        (some (.vObj [("base_tree", baseTreeSha), ("tree", .vArr treeItems)]))) fun newTree =>
    match jsGetProp newTree "sha" with
    | .error e => ghFail e
    | .ok newTreeSha =>
    ghBind (githubRequest w (base ++ "/git/commits") "POST"
        (some (.vObj [("message", message), ("tree", newTreeSha),
          ("parents", .vArr [currentCommitSha])]))) fun newCommit =>
    match jsGetProp newCommit "sha" with
    | .error e => ghFail e
    | .ok newCommitSha =>
    ghBind (githubRequest w (base ++ "/git/refs/heads/" ++ jsToStr branch) "PATCH"
        (some (.vObj [("sha", newCommitSha)]))) fun _ =>
    ghOk (.vObj [("commit", newCommit), ("filesUpdated", .vNum fileList.length)])
  | _ => ghFail "files.map is not a function"

/-- `githubListBranches(owner, repo)`. -/
def githubListBranches (w : World) (owner repo : JsValue) : GhRes JsValue :=
  githubRequest w ("/repos/" ++ jsToStr owner ++ "/" ++ jsToStr repo ++ "/branches")
    "GET" none

/-- `githubGetBranch(owner, repo, branch)`. -/
def githubGetBranch (w : World) (owner repo branch : JsValue) : GhRes JsValue :=
  githubRequest w ("/repos/" ++ jsToStr owner ++ "/" ++ jsToStr repo ++ "/branches/" ++
    jsToStr branch) "GET" none

/-- `githubCreateBranch(owner, repo, branchName, fromBranch = 'main')`. -/
def githubCreateBranch (w : World) (owner repo branchName fromBranch : JsValue) :
    GhRes JsValue :=
  let fromBranch := defOr fromBranch (.vStr "main")
  ghBind (githubGetBranch w owner repo fromBranch) fun sourceBranch =>
    match (do
      let c ← jsGetProp sourceBranch "commit"
      jsGetProp c "sha") with
    | .error e => ghFail e
    | .ok sha =>
      githubRequest w ("/repos/" ++ jsToStr owner ++ "/" ++ jsToStr repo ++ "/git/refs")
        "POST" (some (.vObj [("ref", .vStr ("refs/heads/" ++ jsToStr branchName)),
          ("sha", sha)]))

/-- `githubDeleteBranch(owner, repo, branch)`. -/
def githubDeleteBranch (w : World) (owner repo branch : JsValue) : GhRes JsValue :=
  githubRequest w ("/repos/" ++ jsToStr owner ++ "/" ++ jsToStr repo ++
    "/git/refs/heads/" ++ jsToStr branch) "DELETE" none

/-- `githubListCommits(owner, repo, branch = 'main', perPage = 30)`. -/
def githubListCommits (w : World) (owner repo branch perPage : JsValue) : GhRes JsValue :=
  let branch := defOr branch (.vStr "main")
  let perPage := defOr perPage (.vNum 30)
  githubRequest w ("/repos/" ++ jsToStr owner ++ "/" ++ jsToStr repo ++ "/commits?sha=" ++
    jsToStr branch ++ "&per_page=" ++ jsToStr perPage) "GET" none

/-- `githubGetCommit(owner, repo, sha)`. -/
def githubGetCommit (w : World) (owner repo sha : JsValue) : GhRes JsValue :=
  githubRequest w ("/repos/" ++ jsToStr owner ++ "/" ++ jsToStr repo ++ "/commits/" ++
    jsToStr sha) "GET" none

/-- `githubCreatePullRequest(owner, repo, title, head, base, body = '',
draft = false)`. -/
def githubCreatePullRequest (w : World) (owner repo title head base body draft : JsValue) :
    GhRes JsValue :=
  let body := defOr body (.vStr "")
  let draft := defOr draft (.vBool false)
  githubRequest w ("/repos/" ++ jsToStr owner ++ "/" ++ jsToStr repo ++ "/pulls") "POST"
    (some (.vObj [("title", title), ("head", head), ("base", base), ("body", body),
      ("draft", draft)]))

/-- `githubListPullRequests(owner, repo, state = 'open', perPage = 30)`. -/
def githubListPullRequests (w : World) (owner repo state perPage : JsValue) : GhRes JsValue :=
  let state := defOr state (.vStr "open")
  let perPage := defOr perPage (.vNum 30)
  githubRequest w ("/repos/" ++ jsToStr owner ++ "/" ++ jsToStr repo ++ "/pulls?state=" ++
    jsToStr state ++ "&per_page=" ++ jsToStr perPage) "GET" none

/-- `githubGetPullRequest(owner, repo, pullNumber)`. -/
def githubGetPullRequest (w : World) (owner repo pullNumber : JsValue) : GhRes JsValue :=
  githubRequest w ("/repos/" ++ jsToStr owner ++ "/" ++ jsToStr repo ++ "/pulls/" ++
    jsToStr pullNumber) "GET" none

/-- `githubMergePullRequest(owner, repo, pullNumber, commitTitle = '',
commitMessage = '', mergeMethod = 'merge')`. -/
def githubMergePullRequest (w : World)
    (owner repo pullNumber commitTitle commitMessage mergeMethod : JsValue) :
    GhRes JsValue :=
  let commitTitle := defOr commitTitle (.vStr "")
  let commitMessage := defOr commitMessage (.vStr "")
  let mergeMethod := defOr mergeMethod (.vStr "merge")
  githubRequest w ("/repos/" ++ jsToStr owner ++ "/" ++ jsToStr repo ++ "/pulls/" ++
    jsToStr pullNumber ++ "/merge") "PUT"
    (some (.vObj [("commit_title", commitTitle), ("commit_message", commitMessage),
      ("merge_method", mergeMethod)]))

/-- `githubCreateIssue(owner, repo, title, body = '', labels = [],
assignees = [])`. -/
def githubCreateIssue (w : World) (owner repo title body labels assignees : JsValue) :
    GhRes JsValue :=
  let body := defOr body (.vStr "")
  let labels := defOr labels (.vArr [])
  let assignees := defOr assignees (.vArr [])
  githubRequest w ("/repos/" ++ jsToStr owner ++ "/" ++ jsToStr repo ++ "/issues") "POST"
    (some (.vObj [("title", title), ("body", body), ("labels", labels),
      ("assignees", assignees)]))

/-- `githubListIssues(owner, repo, state = 'open', perPage = 30)`. -/
def githubListIssues (w : World) (owner repo state perPage : JsValue) : GhRes JsValue :=
  let state := defOr state (.vStr "open")
  let perPage := defOr perPage (.vNum 30)
  githubRequest w ("/repos/" ++ jsToStr owner ++ "/" ++ jsToStr repo ++ "/issues?state=" ++
    jsToStr state ++ "&per_page=" ++ jsToStr perPage) "GET" none

/-- `githubAddComment(owner, repo, issueNumber, body)`. -/
def githubAddComment (w : World) (owner repo issueNumber body : JsValue) : GhRes JsValue :=
  githubRequest w ("/repos/" ++ jsToStr owner ++ "/" ++ jsToStr repo ++ "/issues/" ++
    jsToStr issueNumber ++ "/comments") "POST" (some (.vObj [("body", body)]))

/-- `githubGetTree(owner, repo, sha = 'main', recursive = true)`. -/
def githubGetTree (w : World) (owner repo sha recursive : JsValue) : GhRes JsValue :=
  let sha := defOr sha (.vStr "main")
  let recursive := defOr recursive (.vBool true)
  let params := if truthy recursive then "?recursive=1" else ""
  githubRequest w ("/repos/" ++ jsToStr owner ++ "/" ++ jsToStr repo ++ "/git/trees/" ++
    jsToStr sha ++ params) "GET" none

/-- `githubListContents(owner, repo, path = '', ref = 'main')`. -/
def githubListContents (w : World) (owner repo path ref : JsValue) : GhRes JsValue :=
  let path := defOr path (.vStr "")
  let ref := defOr ref (.vStr "main")
  let endpoint := if truthy path then
      "/repos/" ++ jsToStr owner ++ "/" ++ jsToStr repo ++ "/contents/" ++ jsToStr path ++
        "?ref=" ++ jsToStr ref
    else
      "/repos/" ++ jsToStr owner ++ "/" ++ jsToStr repo ++ "/contents?ref=" ++ jsToStr ref
  githubRequest w endpoint "GET" none

/-- `githubSearchRepositories(query, sort = 'stars', order = 'desc',
perPage = 10)` (URLSearchParams in insertion order). -/
def githubSearchRepositories (w : World) (query sort order perPage : JsValue) :
    GhRes JsValue :=
  let sort := defOr sort (.vStr "stars")
  let order := defOr order (.vStr "desc")
  let perPage := defOr perPage (.vNum 10)
  githubRequest w ("/search/repositories?q=" ++ w.urlencode (jsToStr query) ++
    "&sort=" ++ w.urlencode (jsToStr sort) ++ "&order=" ++ w.urlencode (jsToStr order) ++
    "&per_page=" ++ w.urlencode (jsToStr perPage)) "GET" none

/-- `githubSearchCode(query, perPage = 30)`. -/
def githubSearchCode (w : World) (query perPage : JsValue) : GhRes JsValue :=
  let perPage := defOr perPage (.vNum 30)
  githubRequest w ("/search/code?q=" ++ w.urlencode (jsToStr query) ++ "&per_page=" ++
    w.urlencode (jsToStr perPage)) "GET" none

/-! ### The call-tool dispatcher (src/index.js, lines 689-799) -/

/-- Reading `args.k` where `args` is `request.params.arguments`: a missing
arguments object makes property access throw; a present object yields the
field or `undefined`. -/
def argGet (args : Option ArgMap) (k : String) : Except String JsValue :=
  match args with
  | none => .error ("Cannot read properties of undefined reading " ++ k)
  | some m => .ok ((assocGet m k).getD .vUndefined)

/-- The call-start record emitted by `logToolCall(toolName, args, sessionId
= 'unknown')`: operation name, ISO timestamp, session identifier, and the
sanitized arguments. -/
structure CallRecord where
  toolName : String
  timestamp : String
  sessionId : String
  args : Option ArgMap

/-- `logToolCall`. The dispatcher's call site (line 694) passes only
`(name, args)`, so the default `'unknown'` is what the dispatcher supplies
for `sessionId`. -/
def logToolCall (w : World) (toolName2 : String) (args : Option ArgMap)
    (sessionId : String) : CallRecord :=
  { toolName := toolName2, timestamp := w.now, sessionId := sessionId,
    args := sanitizeArgs args }

/-- One `{type: 'text', text: ...}` content item of the response envelope. -/
structure TextItem where
  type : String
  text : String

/-- The wire envelope of an invocation outcome: a content list, plus the
`isError` flag which is present (`some true`) only on the failure branch. -/
structure Envelope where
  content : List TextItem
  isError : Option Bool

/-- Everything observable about one dispatch: the returned envelope, the
emitted call-start record, and the upstream requests issued. -/
structure DispatchOut where
  envelope : Envelope
  record : CallRecord
  calls : List FetchCall

/-- The `switch (name)` of the call-tool handler: route to the matching
handler (evaluating `args.x` reads first, as the source call sites do), or
throw `Unknown tool: <name>` on the default branch without issuing any
upstream request. -/
def runTool (w : World) (name : String) (args : Option ArgMap) : GhRes JsValue :=
  if name = "github_verify_token" then
    let r := githubVerifyToken w
    (.ok r.1, r.2)
  else if name = "github_get_user" then
    githubGetUser w
  else if name = "github_list_repositories" then
    match (do
      let sort ← argGet args "sort"
      let perPage ← argGet args "perPage"
      Except.ok (sort, perPage)) with
    | .error e => ghFail e
    | .ok a => githubListRepositories w a.1 a.2
  else if name = "github_get_repository" then
    match (do
      let owner ← argGet args "owner"
      let repo ← argGet args "repo"
      Except.ok (owner, repo)) with
    | .error e => ghFail e
    | .ok a => githubGetRepository w a.1 a.2
  else if name = "github_create_repository" then
    match (do
      let nm ← argGet args "name"
      let description ← argGet args "description"
      let isPrivate ← argGet args "isPrivate"
      let autoInit ← argGet args "autoInit"
      Except.ok (nm, description, isPrivate, autoInit)) with
    | .error e => ghFail e
    | .ok a => githubCreateRepository w a.1 a.2.1 a.2.2.1 a.2.2.2
  else if name = "github_delete_repository" then
    match (do
      let owner ← argGet args "owner"
      let repo ← argGet args "repo"
      Except.ok (owner, repo)) with
    | .error e => ghFail e
    | .ok a => githubDeleteRepository w a.1 a.2
  else if name = "github_get_file_contents" then
    match (do
      let owner ← argGet args "owner"
      let repo ← argGet args "repo"
      let path ← argGet args "path"
      let ref ← argGet args "ref"
      Except.ok (owner, repo, path, ref)) with
    | .error e => ghFail e
    | .ok a => githubGetFileContents w a.1 a.2.1 a.2.2.1 a.2.2.2
  else if name = "github_create_or_update_file" then
    match (do
      let owner ← argGet args "owner"
      let repo ← argGet args "repo"
      let path ← argGet args "path"
      let content ← argGet args "content"
      let message ← argGet args "message"
      let branch ← argGet args "branch"
      let sha ← argGet args "sha"
      Except.ok (owner, repo, path, content, message, branch, sha)) with
    | .error e => ghFail e
    | .ok a => githubCreateOrUpdateFile w a.1 a.2.1 a.2.2.1 a.2.2.2.1 a.2.2.2.2.1
        a.2.2.2.2.2.1 a.2.2.2.2.2.2
  else if name = "github_delete_file" then
    match (do
      let owner ← argGet args "owner"
      let repo ← argGet args "repo"
      let path ← argGet args "path"
      let message ← argGet args "message"
      let sha ← argGet args "sha"
      let branch ← argGet args "branch"
      Except.ok (owner, repo, path, message, sha, branch)) with
    | .error e => ghFail e
    | .ok a => githubDeleteFile w a.1 a.2.1 a.2.2.1 a.2.2.2.1 a.2.2.2.2.1 a.2.2.2.2.2
  else if name = "github_push_files" then
    match (do
      let owner ← argGet args "owner"
      let repo ← argGet args "repo"
      let files ← argGet args "files"
      let message ← argGet args "message"
      let branch ← argGet args "branch"
      Except.ok (owner, repo, files, message, branch)) with
    | .error e => ghFail e
    | .ok a => githubPushFiles w a.1 a.2.1 a.2.2.1 a.2.2.2.1 a.2.2.2.2
  else if name = "github_list_branches" then
    match (do
      let owner ← argGet args "owner"
      let repo ← argGet args "repo"
      Except.ok (owner, repo)) with
    | .error e => ghFail e
    | .ok a => githubListBranches w a.1 a.2
  else if name = "github_create_branch" then
    match (do
      let owner ← argGet args "owner"
      let repo ← argGet args "repo"
      let branchName ← argGet args "branchName"
      let fromBranch ← argGet args "fromBranch"
      Except.ok (owner, repo, branchName, fromBranch)) with
    | .error e => ghFail e
    | .ok a => githubCreateBranch w a.1 a.2.1 a.2.2.1 a.2.2.2
  else if name = "github_delete_branch" then
    match (do
      let owner ← argGet args "owner"
      let repo ← argGet args "repo"
      let branch ← argGet args "branch"
      Except.ok (owner, repo, branch)) with
    | .error e => ghFail e
    | .ok a => githubDeleteBranch w a.1 a.2.1 a.2.2
  else if name = "github_list_commits" then
    match (do
      let owner ← argGet args "owner"
      let repo ← argGet args "repo"
      let branch ← argGet args "branch"
      let perPage ← argGet args "perPage"
      Except.ok (owner, repo, branch, perPage)) with
    | .error e => ghFail e
    | .ok a => githubListCommits w a.1 a.2.1 a.2.2.1 a.2.2.2
  else if name = "github_get_commit" then
    match (do
      let owner ← argGet args "owner"
      let repo ← argGet args "repo"
      let sha ← argGet args "sha"
      Except.ok (owner, repo, sha)) with
    | .error e => ghFail e
    | .ok a => githubGetCommit w a.1 a.2.1 a.2.2
  else if name = "github_create_pull_request" then
    match (do
      let owner ← argGet args "owner"
      let repo ← argGet args "repo"
      let title ← argGet args "title"
      let head ← argGet args "head"
      let base ← argGet args "base"
      let body ← argGet args "body"
      let draft ← argGet args "draft"
      Except.ok (owner, repo, title, head, base, body, draft)) with
    | .error e => ghFail e
    | .ok a => githubCreatePullRequest w a.1 a.2.1 a.2.2.1 a.2.2.2.1 a.2.2.2.2.1
        a.2.2.2.2.2.1 a.2.2.2.2.2.2
  else if name = "github_list_pull_requests" then
    match (do
      let owner ← argGet args "owner"
      let repo ← argGet args "repo"
      let state ← argGet args "state"
      let perPage ← argGet args "perPage"
      Except.ok (owner, repo, state, perPage)) with
    | .error e => ghFail e
    | .ok a => githubListPullRequests w a.1 a.2.1 a.2.2.1 a.2.2.2
  else if name = "github_get_pull_request" then
    match (do
      let owner ← argGet args "owner"
      let repo ← argGet args "repo"
      let pullNumber ← argGet args "pullNumber"
      Except.ok (owner, repo, pullNumber)) with
    | .error e => ghFail e
    | .ok a => githubGetPullRequest w a.1 a.2.1 a.2.2
  else if name = "github_merge_pull_request" then
    match (do
      let owner ← argGet args "owner"
      let repo ← argGet args "repo"
      let pullNumber ← argGet args "pullNumber"
      let commitTitle ← argGet args "commitTitle"
      let commitMessage ← argGet args "commitMessage"
      let mergeMethod ← argGet args "mergeMethod"
      Except.ok (owner, repo, pullNumber, commitTitle, commitMessage, mergeMethod)) with
    | .error e => ghFail e
    | .ok a => githubMergePullRequest w a.1 a.2.1 a.2.2.1 a.2.2.2.1 a.2.2.2.2.1
        a.2.2.2.2.2
  else if name = "github_create_issue" then
    match (do
      let owner ← argGet args "owner"
      let repo ← argGet args "repo"
      let title ← argGet args "title"
      let body ← argGet args "body"
      let labels ← argGet args "labels"
      let assignees ← argGet args "assignees"
      Except.ok (owner, repo, title, body, labels, assignees)) with
    | .error e => ghFail e
    | .ok a => githubCreateIssue w a.1 a.2.1 a.2.2.1 a.2.2.2.1 a.2.2.2.2.1 a.2.2.2.2.2
  else if name = "github_list_issues" then
    match (do
      let owner ← argGet args "owner"
      let repo ← argGet args "repo"
      let state ← argGet args "state"
      let perPage ← argGet args "perPage"
      Except.ok (owner, repo, state, perPage)) with
    | .error e => ghFail e
    | .ok a => githubListIssues w a.1 a.2.1 a.2.2.1 a.2.2.2
  else if name = "github_add_comment" then
    match (do
      let owner ← argGet args "owner"
      let repo ← argGet args "repo"
      let issueNumber ← argGet args "issueNumber"
      let body ← argGet args "body"
      Except.ok (owner, repo, issueNumber, body)) with
    | .error e => ghFail e
    | .ok a => githubAddComment w a.1 a.2.1 a.2.2.1 a.2.2.2
  else if name = "github_get_tree" then
    match (do
      let owner ← argGet args "owner"
      let repo ← argGet args "repo"
      let sha ← argGet args "sha"
      let recursive ← argGet args "recursive"
      Except.ok (owner, repo, sha, recursive)) with
    | .error e => ghFail e
    | .ok a => githubGetTree w a.1 a.2.1 a.2.2.1 a.2.2.2
  else if name = "github_list_contents" then
    match (do
      let owner ← argGet args "owner"
      let repo ← argGet args "repo"
      let path ← argGet args "path"
      let ref ← argGet args "ref"
      Except.ok (owner, repo, path, ref)) with
    | .error e => ghFail e
    | .ok a => githubListContents w a.1 a.2.1 a.2.2.1 a.2.2.2
  else if name = "github_search_repositories" then
    match (do
      let query ← argGet args "query"
      let sort ← argGet args "sort"
      let order ← argGet args "order"
      let perPage ← argGet args "perPage"
      Except.ok (query, sort, order, perPage)) with
    | .error e => ghFail e
    | .ok a => githubSearchRepositories w a.1 a.2.1 a.2.2.1 a.2.2.2
  else if name = "github_search_code" then
    match (do
      let query ← argGet args "query"
      let perPage ← argGet args "perPage"
      Except.ok (query, perPage)) with
    | .error e => ghFail e
    | .ok a => githubSearchCode w a.1 a.2
  else
    (.error ("Unknown tool: " ++ name), [])

/-- The registered operation catalog (the 26 `case` labels of the switch,
which coincide with the names listed for discovery). -/
def toolNames : List String :=
  ["github_verify_token", "github_get_user", "github_list_repositories",
   "github_get_repository", "github_create_repository", "github_delete_repository",
   "github_get_file_contents", "github_create_or_update_file", "github_delete_file",
   "github_push_files", "github_list_branches", "github_create_branch",
   "github_delete_branch", "github_list_commits", "github_get_commit",
   "github_create_pull_request", "github_list_pull_requests", "github_get_pull_request",
   "github_merge_pull_request", "github_create_issue", "github_list_issues",
   "github_add_comment", "github_get_tree", "github_list_contents",
   "github_search_repositories", "github_search_code"]

/-- The full `CallToolRequestSchema` handler: log the call-start record,
run the switch inside `try`, and wrap the outcome — fulfilled results as
`{content: [{type:'text', text: JSON.stringify(result)}]}`, any caught
error as `{content: [{type:'text', text: 'Error: <message>'}], isError:
true}`. -/
def handleCallTool (w : World) (name : String) (args : Option ArgMap) : DispatchOut :=
  let record := logToolCall w name args "unknown"
  let r := runTool w name args
  match r.1 with
  | .ok result =>
    let env : Envelope :=
      { content := [{ type := "text", text := jsonStringify result }], isError := none }
    { envelope := env, record := record, calls := r.2 }
  | .error msg =>
    let env : Envelope :=
      { content := [{ type := "text", text := "Error: " ++ msg }], isError := some true }
    { envelope := env, record := record, calls := r.2 }

/-- A success envelope: no error flag, a single text content item. -/
def isSuccessEnvelope (e : Envelope) : Prop :=
  e.isError = none ∧ ∃ t, e.content = [{ type := "text", text := t }]

/-- A failure envelope: error flag set, a single text item of the form
`Error: <message>`. -/
def isFailureEnvelope (e : Envelope) : Prop :=
  e.isError = some true ∧ ∃ msg, e.content = [{ type := "text", text := "Error: " ++ msg }]

/-! ### Sessions (src/index.js, lines 808, 857-896) -/

/-- A server/transport pair bound to one session (`createMCPServer()` plus
its `StreamableHTTPServerTransport`), identified here by opaque ids. -/
structure Binding where
  serverId : Nat
  transportId : Nat
deriving DecidableEq, Repr

/-- The module-level `sessions` map from session identifier to binding. -/
abbrev SessionTable := List (String × Binding)

/-- The observable outcome of one `POST /mcp`: the updated table, the
`Mcp-Session-Id` response header, the binding that served the request, and
whether a new session was created. -/
structure PostOutcome where
  table : SessionTable
  header : String
  binding : Binding
  created : Bool
deriving DecidableEq, Repr

/-- `app.post('/mcp')` session resolution: reuse the existing binding when
the presented header is truthy and present in the table; otherwise generate
a fresh identifier (`randomUUID()`, injected here as `freshId`), build a
new server/transport pair (`freshBinding`), record it (the
`onsessioninitialized` callback and the explicit `sessions.set` store the
same key/value pair), and echo the identifier. -/
def postMcp (table : SessionTable) (hdr : Option String) (freshId : String)
    (freshBinding : Binding) : PostOutcome :=
  match hdr with
  | some sid =>
    if sid ≠ "" then
      match assocGet table sid with
      | some b => { table := table, header := sid, binding := b, created := false }
      | none =>
        { table := assocSet table freshId freshBinding, header := freshId,
          binding := freshBinding, created := true }
    else
      { table := assocSet table freshId freshBinding, header := freshId,
        binding := freshBinding, created := true }
  | none =>
    { table := assocSet table freshId freshBinding, header := freshId,
      binding := freshBinding, created := true }

/-- `app.delete('/mcp')`: 200 and removal when the presented header is
truthy and present, 404 with the table unchanged otherwise. -/
def deleteMcp (table : SessionTable) (hdr : Option String) : Nat × SessionTable :=
  match hdr with
  | some sid =>
    if sid ≠ "" ∧ assocHas table sid then (200, assocDelete table sid)
    else (404, table)
  | none => (404, table)

/-! ### Contract-side description of the upstream client (spec, section 6) -/

/-- The "no content" success value the contract promises for 204-equivalent
responses: a fixed sentinel, not a parse of the (empty) body. -/
def noContentValue : JsValue := .vObj [("success", .vBool true)]

/-- The failure the contract promises for a non-2xx response: the
upstream's message string — the parsed error body's `message` when present
and truthy, the status text wrapped as a message when the body fails to
parse, and the generic `GitHub API error: <status>` fallback otherwise (a
`null` parsed body makes the `.message` read itself throw, and that thrown
message is what surfaces). -/
def upstreamFailureResult (resp : FetchResp) : Except String JsValue :=
  match jsGetProp (match resp.body with
      | .ok v => v
      | .error _ => .vObj [("message", .vStr resp.statusText)]) "message" with
  | .error e => .error e
  | .ok msg =>
      .error (if truthy msg then jsToStr msg else "GitHub API error: " ++ toString resp.status)

/-! ### Concrete environments used to witness the theorems -/

/-- A sample `/user` payload. -/
def userObjEx : JsValue :=
  .vObj [("login", .vStr "octocat"), ("name", .vStr "The Octocat"), ("email", .vNull),
         ("avatar_url", .vStr "https://example.invalid/a.png")]

/-- An environment whose upstream always answers 200 with a user object. -/
def wEx : World :=
  { token := "ghp-token",
    fetch := fun _ _ _ => { status := 200, statusText := "OK", body := .ok userObjEx },
    now := "2026-02-03T04:05:06.789Z",
    b64encode := fun s => s, b64decode := fun s => s, urlencode := fun s => s }

/-- An environment whose upstream always answers 404. -/
def w404 : World :=
  { wEx with fetch := fun _ _ _ =>
      { status := 404, statusText := "Not Found",
        body := .ok (.vObj [("message", .vStr "Not Found")]) } }

/-- An environment whose upstream always answers 204 with an unparsable
body. -/
def w204 : World :=
  { wEx with fetch := fun _ _ _ =>
      { status := 204, statusText := "No Content",
        body := .error "unexpected end of JSON input" } }

/-- An environment with no credential configured. -/
def wNoToken : World := { wEx with token := "" }

/-- An environment whose upstream answers 200 with a body that parses to
JSON `null`: the user lookup *fulfills*, with `null`. -/
def wNullUser : World :=
  { wEx with fetch := fun _ _ _ =>
      { status := 200, statusText := "OK", body := .ok .vNull } }

/-! ## Lemmas and theorems -/

/-! ### Association-list lemmas -/

theorem replAt_fst_eq {β : Type} (k : String) (v v2 : β) :
    replAt k v (k, v2) = (k, v) := by
  simp [replAt]

theorem replAt_fst_ne {β : Type} (k k2 : String) (v v2 : β) (h : k2 ≠ k) :
    replAt k v (k2, v2) = (k2, v2) := by
  simp [replAt, h]

theorem assocGet_map_replAt {β : Type} (m : List (String × β)) (k : String) (v : β)
    (k2 : String) :
    assocGet (m.map (replAt k v)) k2 =
      if k2 = k then (assocGet m k).map (fun _ => v) else assocGet m k2 := by
  induction m with
  | nil => simp [assocGet]
  | cons p rest ih =>
    obtain ⟨k3, v3⟩ := p
    simp only [List.map_cons]
    by_cases h3 : k3 = k
    · subst h3
      rw [replAt_fst_eq]
      by_cases h4 : k2 = k3
      · subst h4
        simp [assocGet]
      · simp [assocGet, h4, Ne.symm h4, ih]
    · rw [replAt_fst_ne k k3 v v3 h3]
      by_cases h4 : k3 = k2
      · subst h4
        simp [assocGet, h3]
      · by_cases h5 : k2 = k
        · subst h5
          simpa [assocGet, h3, h4] using ih
        · simp [assocGet, h3, h4, h5, ih]

theorem assocGet_append_of_none {β : Type} (m1 m2 : List (String × β)) (k : String)
    (h : assocGet m1 k = none) : assocGet (m1 ++ m2) k = assocGet m2 k := by
  induction m1 with
  | nil => simp
  | cons p rest ih =>
    obtain ⟨k2, v2⟩ := p
    by_cases h2 : k2 = k
    · simp [assocGet, h2] at h
    · simp [assocGet, h2] at h ⊢
      exact ih h

theorem assocGet_append_of_some {β : Type} (m1 m2 : List (String × β)) (k : String)
    (v : β) (h : assocGet m1 k = some v) : assocGet (m1 ++ m2) k = some v := by
  induction m1 with
  | nil => simp [assocGet] at h
  | cons p rest ih =>
    obtain ⟨k2, v2⟩ := p
    by_cases h2 : k2 = k
    · simp [assocGet, h2] at h ⊢
      exact h
    · simp [assocGet, h2] at h ⊢
      exact ih h

theorem assocGet_set_self {β : Type} (m : List (String × β)) (k : String) (v : β) :
    assocGet (assocSet m k v) k = some v := by
  unfold assocSet
  by_cases h : assocHas m k = true
  · rw [if_pos h, assocGet_map_replAt]
    unfold assocHas at h
    cases hg : assocGet m k with
    | none => rw [hg] at h; simp at h
    | some v2 => simp [hg]
  · rw [if_neg h]
    unfold assocHas at h
    cases hg : assocGet m k with
    | none =>
      rw [assocGet_append_of_none m [(k, v)] k hg]
      simp [assocGet]
    | some v2 => rw [hg] at h; simp at h

theorem assocGet_set_ne {β : Type} (m : List (String × β)) (k : String) (v : β)
    (k2 : String) (h : k2 ≠ k) : assocGet (assocSet m k v) k2 = assocGet m k2 := by
  unfold assocSet
  by_cases hh : assocHas m k = true
  · rw [if_pos hh, assocGet_map_replAt, if_neg h]
  · rw [if_neg hh]
    cases hg : assocGet m k2 with
    | none =>
      rw [assocGet_append_of_none m [(k, v)] k2 hg]
      simp [assocGet, Ne.symm h]
    | some v2 =>
      exact assocGet_append_of_some m [(k, v)] k2 v2 hg

theorem assocHas_set {β : Type} (m : List (String × β)) (k : String) (v : β)
    (k2 : String) :
    assocHas (assocSet m k v) k2 = (assocHas m k2 || decide (k2 = k)) := by
  by_cases h : k2 = k
  · subst h
    simp [assocHas, assocGet_set_self]
  · simp [assocHas, assocGet_set_ne m k v k2 h, h]

theorem map_replAt_replAt_same {β : Type} (m : List (String × β)) (k : String)
    (v w : β) : (m.map (replAt k v)).map (replAt k w) = m.map (replAt k w) := by
  rw [List.map_map]
  apply List.map_congr_left
  intro p _
  obtain ⟨k2, v2⟩ := p
  by_cases h : k2 = k <;> simp [replAt, h]

theorem map_replAt_comm {β : Type} (m : List (String × β)) (k k2 : String)
    (v v2 : β) (h : k ≠ k2) :
    (m.map (replAt k v)).map (replAt k2 v2) = (m.map (replAt k2 v2)).map (replAt k v) := by
  rw [List.map_map, List.map_map]
  apply List.map_congr_left
  intro p _
  obtain ⟨k3, v3⟩ := p
  by_cases h3 : k3 = k
  · subst h3
    simp [replAt, Function.comp, h, Ne.symm h]
  · by_cases h4 : k3 = k2 <;> simp [replAt, Function.comp, h3, h4, h, Ne.symm h]

theorem map_replAt_of_not_has {β : Type} (m : List (String × β)) (k : String) (v : β)
    (h : assocHas m k = false) : m.map (replAt k v) = m := by
  induction m with
  | nil => simp
  | cons p rest ih =>
    obtain ⟨k2, v2⟩ := p
    by_cases h2 : k2 = k
    · subst h2
      simp [assocHas, assocGet] at h
    · simp [assocHas, assocGet, h2] at h
      simp [replAt, h2, ih (by simp [assocHas, h])]

theorem assocGet_delete_self {β : Type} (m : List (String × β)) (k : String) :
    assocGet (assocDelete m k) k = none := by
  induction m with
  | nil => simp [assocDelete, assocGet]
  | cons p rest ih =>
    obtain ⟨k2, v2⟩ := p
    by_cases h : k2 = k
    · simpa [assocDelete, h] using ih
    · simpa [assocDelete, assocGet, h] using ih

theorem assocHas_delete_self {β : Type} (m : List (String × β)) (k : String) :
    assocHas (assocDelete m k) k = false := by
  simp [assocHas, assocGet_delete_self]

theorem assocGet_mem_keys {β : Type} (m : List (String × β)) (k : String) (v : β)
    (h : assocGet m k = some v) : k ∈ assocKeys m := by
  induction m with
  | nil => simp [assocGet] at h
  | cons p rest ih =>
    obtain ⟨k2, v2⟩ := p
    by_cases h2 : k2 = k
    · simp [assocKeys, h2]
    · simp [assocGet, h2] at h
      simpa [assocKeys] using Or.inr (by simpa [assocKeys] using ih h)

theorem assocHas_mem_keys {β : Type} (m : List (String × β)) (k : String)
    (h : assocHas m k = true) : k ∈ assocKeys m := by
  unfold assocHas at h
  cases hv : assocGet m k with
  | none => rw [hv] at h; simp at h
  | some v => exact assocGet_mem_keys m k v hv

theorem assocHas_map_replAt {β : Type} (m : List (String × β)) (k : String) (v : β)
    (k2 : String) : assocHas (m.map (replAt k v)) k2 = assocHas m k2 := by
  unfold assocHas
  rw [assocGet_map_replAt]
  by_cases h : k2 = k
  · subst h
    cases assocGet m k2 <;> simp
  · rw [if_neg h]

theorem assocHas_append_key {β : Type} (m : List (String × β)) (k : String) (v : β) :
    assocHas (m ++ [(k, v)]) k = true := by
  unfold assocHas
  cases hg : assocGet m k with
  | none =>
    rw [assocGet_append_of_none m [(k, v)] k hg]
    simp [assocGet]
  | some v2 =>
    rw [assocGet_append_of_some m [(k, v)] k v2 hg]
    simp

theorem assocSet_of_has {β : Type} (m : List (String × β)) (k : String) (v : β)
    (h : assocHas m k = true) : assocSet m k v = m.map (replAt k v) := by
  unfold assocSet
  rw [if_pos h]

theorem assocSet_of_not_has {β : Type} (m : List (String × β)) (k : String) (v : β)
    (h : assocHas m k = false) : assocSet m k v = m ++ [(k, v)] := by
  unfold assocSet
  rw [if_neg (by simp [h])]

theorem assocSet_set_same {β : Type} (m : List (String × β)) (k : String) (v v2 : β) :
    assocSet (assocSet m k v) k v2 = assocSet m k v2 := by
  by_cases h : assocHas m k = true
  · rw [assocSet_of_has m k v h, assocSet_of_has m k v2 h,
      assocSet_of_has _ k v2 (by rw [assocHas_map_replAt]; exact h),
      map_replAt_replAt_same]
  · have hf : assocHas m k = false := by simpa using h
    rw [assocSet_of_not_has m k v hf, assocSet_of_not_has m k v2 hf,
      assocSet_of_has _ k v2 (assocHas_append_key m k v), List.map_append,
      map_replAt_of_not_has m k v2 hf]
    simp [replAt]

theorem assocSet_comm_right {β : Type} (m : List (String × β)) (k k2 : String)
    (v v2 : β) (hne : k ≠ k2) (hk2 : assocHas m k2 = true) :
    assocSet (assocSet m k v) k2 v2 = assocSet (assocSet m k2 v2) k v := by
  by_cases hk : assocHas m k = true
  · rw [assocSet_of_has m k v hk, assocSet_of_has m k2 v2 hk2,
      assocSet_of_has _ k2 v2 (by rw [assocHas_map_replAt]; exact hk2),
      assocSet_of_has _ k v (by rw [assocHas_map_replAt]; exact hk),
      map_replAt_comm m k k2 v v2 hne]
  · have hkf : assocHas m k = false := by simpa using hk
    rw [assocSet_of_not_has m k v hkf, assocSet_of_has m k2 v2 hk2]
    have h3 : assocHas (m ++ [(k, v)]) k2 = true := by
      unfold assocHas
      unfold assocHas at hk2
      cases hg : assocGet m k2 with
      | none => rw [hg] at hk2; simp at hk2
      | some u => rw [assocGet_append_of_some m [(k, v)] k2 u hg]; simp
    have h4 : assocHas (m.map (replAt k2 v2)) k = false := by
      rw [assocHas_map_replAt]; exact hkf
    rw [assocSet_of_has _ k2 v2 h3, assocSet_of_not_has _ k v h4, List.map_append]
    simp [replAt, hne]

/-! ### Sanitization lemmas -/

theorem redactField_get_other (m : ArgMap) (k0 k : String) (h : k ≠ k0) :
    assocGet (redactField m k0) k = assocGet m k := by
  unfold redactField
  by_cases ht : truthy ((assocGet m k0).getD .vUndefined) = true
  · rw [if_pos ht]
    exact assocGet_set_ne m k0 _ k h
  · rw [if_neg ht]

theorem sanitizeContent_get_other (m : ArgMap) (k : String) (h : k ≠ "content") :
    assocGet (sanitizeContent m) k = assocGet m k := by
  unfold sanitizeContent
  by_cases hc : contentTooLong ((assocGet m "content").getD .vUndefined) = true
  · rw [if_pos hc]
    exact assocGet_set_ne m "content" _ k h
  · rw [if_neg hc]

theorem sanitizeMap_get_other (m : ArgMap) (k : String) (h1 : k ≠ "content")
    (h2 : k ≠ "token") (h3 : k ≠ "password") :
    assocGet (sanitizeMap m) k = assocGet m k := by
  unfold sanitizeMap
  rw [redactField_get_other _ "password" k h3, redactField_get_other _ "token" k h2,
    sanitizeContent_get_other m k h1]

theorem redactField_get_self (m : ArgMap) (k0 : String) (t : JsValue)
    (hg : assocGet m k0 = some t) (ht : truthy t = true) :
    assocGet (redactField m k0) k0 = some (.vStr "[REDACTED]") := by
  unfold redactField
  rw [hg, Option.getD_some, if_pos ht]
  exact assocGet_set_self m k0 _

theorem redactField_id_of_not_truthy (m : ArgMap) (k0 : String)
    (h : ∀ t, assocGet m k0 = some t → truthy t = false) :
    redactField m k0 = m := by
  unfold redactField
  cases hg : assocGet m k0 with
  | none => simp [truthy]
  | some t => simp [h t hg]

theorem sanitizeContent_id_of_not_long (m : ArgMap)
    (h : ∀ c, assocGet m "content" = some c → contentTooLong c = false) :
    sanitizeContent m = m := by
  unfold sanitizeContent
  cases hg : assocGet m "content" with
  | none => simp [contentTooLong, truthy]
  | some c => simp [h c hg]

theorem sanitizeMap_get_token (m : ArgMap) (t : JsValue)
    (hg : assocGet m "token" = some t) (ht : truthy t = true) :
    assocGet (sanitizeMap m) "token" = some (.vStr "[REDACTED]") := by
  unfold sanitizeMap
  rw [redactField_get_other _ "password" "token" (by decide)]
  exact redactField_get_self _ "token" t
    (by rw [sanitizeContent_get_other m "token" (by decide)]; exact hg) ht

theorem sanitizeMap_get_password (m : ArgMap) (t : JsValue)
    (hg : assocGet m "password" = some t) (ht : truthy t = true) :
    assocGet (sanitizeMap m) "password" = some (.vStr "[REDACTED]") := by
  unfold sanitizeMap
  exact redactField_get_self _ "password" t
    (by rw [redactField_get_other _ "token" "password" (by decide),
          sanitizeContent_get_other m "password" (by decide)]
        exact hg) ht

theorem sanitizeMap_get_content (m : ArgMap) (c : JsValue)
    (hg : assocGet m "content" = some c) (hc : contentTooLong c = true) :
    assocGet (sanitizeMap m) "content" = some (lengthIndicator c) := by
  unfold sanitizeMap
  rw [redactField_get_other _ "password" "content" (by decide),
    redactField_get_other _ "token" "content" (by decide)]
  unfold sanitizeContent
  rw [hg, Option.getD_some, if_pos hc]
  exact assocGet_set_self m "content" _

theorem sanitizeMap_get_content_id (m : ArgMap)
    (h : ∀ c, assocGet m "content" = some c → contentTooLong c = false) :
    assocGet (sanitizeMap m) "content" = assocGet m "content" := by
  unfold sanitizeMap
  rw [redactField_get_other _ "password" "content" (by decide),
    redactField_get_other _ "token" "content" (by decide),
    sanitizeContent_id_of_not_long m h]

theorem sanitizeMap_get_token_id (m : ArgMap)
    (h : ∀ t, assocGet m "token" = some t → truthy t = false) :
    assocGet (sanitizeMap m) "token" = assocGet m "token" := by
  unfold sanitizeMap
  rw [redactField_get_other _ "password" "token" (by decide),
    redactField_id_of_not_truthy _ "token"
      (by intro t hg
          rw [sanitizeContent_get_other m "token" (by decide)] at hg
          exact h t hg),
    sanitizeContent_get_other m "token" (by decide)]

theorem sanitizeMap_get_password_id (m : ArgMap)
    (h : ∀ t, assocGet m "password" = some t → truthy t = false) :
    assocGet (sanitizeMap m) "password" = assocGet m "password" := by
  unfold sanitizeMap
  rw [redactField_id_of_not_truthy _ "password"
      (by intro t hg
          rw [redactField_get_other _ "token" "password" (by decide),
            sanitizeContent_get_other m "password" (by decide)] at hg
          exact h t hg),
    redactField_get_other _ "token" "password" (by decide),
    sanitizeContent_get_other m "password" (by decide)]

theorem sanitizeContent_set_comm (m : ArgMap) (k : String) (t : JsValue)
    (h : k ≠ "content") :
    sanitizeContent (assocSet m k t) = assocSet (sanitizeContent m) k t := by
  unfold sanitizeContent
  rw [assocGet_set_ne m k t "content" (Ne.symm h)]
  by_cases hc : contentTooLong ((assocGet m "content").getD .vUndefined) = true
  · rw [if_pos hc, if_pos hc]
    have hbar : assocHas m "content" = true := by
      cases hg : assocGet m "content" with
      | none =>
        rw [hg] at hc
        simp [contentTooLong, truthy] at hc
      | some c2 =>
        unfold assocHas
        rw [hg]
        rfl
    exact assocSet_comm_right m k "content" t _ h hbar
  · rw [if_neg hc, if_neg hc]

theorem redactField_set_comm (m : ArgMap) (k0 k : String) (t : JsValue)
    (h : k ≠ k0) :
    redactField (assocSet m k t) k0 = assocSet (redactField m k0) k t := by
  unfold redactField
  rw [assocGet_set_ne m k t k0 (Ne.symm h)]
  by_cases hu : truthy ((assocGet m k0).getD .vUndefined) = true
  · rw [if_pos hu, if_pos hu]
    have hbar : assocHas m k0 = true := by
      cases hg : assocGet m k0 with
      | none =>
        rw [hg] at hu
        simp [truthy] at hu
      | some u =>
        unfold assocHas
        rw [hg]
        rfl
    exact assocSet_comm_right m k k0 t _ h hbar
  · rw [if_neg hu, if_neg hu]

theorem redactField_set_self (m : ArgMap) (k0 : String) (t : JsValue)
    (ht : truthy t = true) :
    redactField (assocSet m k0 t) k0 = assocSet m k0 (.vStr "[REDACTED]") := by
  unfold redactField
  rw [assocGet_set_self m k0 t, Option.getD_some, if_pos ht, assocSet_set_same]

theorem sanitizeMap_token_noninterference (m : ArgMap) (t1 t2 : JsValue)
    (h1 : truthy t1 = true) (h2 : truthy t2 = true) :
    sanitizeMap (assocSet m "token" t1) = sanitizeMap (assocSet m "token" t2) := by
  unfold sanitizeMap
  rw [sanitizeContent_set_comm m "token" t1 (by decide),
    sanitizeContent_set_comm m "token" t2 (by decide),
    redactField_set_self _ "token" t1 h1, redactField_set_self _ "token" t2 h2]

theorem sanitizeMap_password_noninterference (m : ArgMap) (t1 t2 : JsValue)
    (h1 : truthy t1 = true) (h2 : truthy t2 = true) :
    sanitizeMap (assocSet m "password" t1) = sanitizeMap (assocSet m "password" t2) := by
  unfold sanitizeMap
  rw [sanitizeContent_set_comm m "password" t1 (by decide),
    sanitizeContent_set_comm m "password" t2 (by decide),
    redactField_set_comm _ "token" "password" t1 (by decide),
    redactField_set_comm _ "token" "password" t2 (by decide),
    redactField_set_self _ "password" t1 h1, redactField_set_self _ "password" t2 h2]

/-! ### Claim C4 -/

/-- C4 is false as stated: a `token` field bound to the empty string is
falsy, so `if (sanitized.token)` skips the redaction and the sanitized
record retains the literal value `""` instead of the marker; consequently
two argument mappings differing only in their `token` values (`""` vs
`"s3cr3t"`) produce different sanitized records. -/
theorem sanitize_redaction_cex :
    sanitizeArgs (some [("token", JsValue.vStr "")]) =
      some [("token", JsValue.vStr "")] ∧
    sanitizeArgs (some [("token", JsValue.vStr "s3cr3t")]) =
      some [("token", JsValue.vStr "[REDACTED]")] ∧
    sanitizeArgs (some [("token", JsValue.vStr "")]) ≠
      sanitizeArgs (some [("token", JsValue.vStr "s3cr3t")]) := by
  refine ⟨rfl, rfl, ?_⟩
  intro hcontra
  simp only [sanitizeArgs] at hcontra
  have h2 : sanitizeMap [("token", JsValue.vStr "")] =
      sanitizeMap [("token", JsValue.vStr "s3cr3t")] := by
    injection hcontra
  have h3 : assocGet (sanitizeMap [("token", JsValue.vStr "")]) "token" =
      assocGet (sanitizeMap [("token", JsValue.vStr "s3cr3t")]) "token" := by
    rw [h2]
  have h4 : (some (JsValue.vStr "") : Option JsValue) = some (JsValue.vStr "[REDACTED]") := h3
  have h5 : JsValue.vStr "" = JsValue.vStr "[REDACTED]" := by injection h4
  have h6 : ("" : String) = "[REDACTED]" := by injection h5
  exact absurd h6 (by decide)

/-- C4 (amended): a *truthy* `token` or `password` value is replaced by the
fixed `[REDACTED]` marker, a truthy `content` whose length exceeds 200 is
replaced by its length indicator, every other top-level field is left
intact, and two argument mappings differing only in a truthy `token`
(resp. `password`) value yield identical sanitized records. -/
theorem sanitize_redaction_amended (m : ArgMap) :
    (∀ t, assocGet m "token" = some t → truthy t = true →
       assocGet (sanitizeMap m) "token" = some (.vStr "[REDACTED]")) ∧
    (∀ t, assocGet m "password" = some t → truthy t = true →
       assocGet (sanitizeMap m) "password" = some (.vStr "[REDACTED]")) ∧
    (∀ c, assocGet m "content" = some c → contentTooLong c = true →
       assocGet (sanitizeMap m) "content" = some (lengthIndicator c)) ∧
    (∀ k, k ≠ "content" → k ≠ "token" → k ≠ "password" →
       assocGet (sanitizeMap m) k = assocGet m k) ∧
    (∀ t1 t2, truthy t1 = true → truthy t2 = true →
       sanitizeMap (assocSet m "token" t1) = sanitizeMap (assocSet m "token" t2)) ∧
    (∀ t1 t2, truthy t1 = true → truthy t2 = true →
       sanitizeMap (assocSet m "password" t1) = sanitizeMap (assocSet m "password" t2)) :=
  ⟨fun t hg ht => sanitizeMap_get_token m t hg ht,
   fun t hg ht => sanitizeMap_get_password m t hg ht,
   fun c hg hc => sanitizeMap_get_content m c hg hc,
   fun k h1 h2 h3 => sanitizeMap_get_other m k h1 h2 h3,
   fun t1 t2 h1 h2 => sanitizeMap_token_noninterference m t1 t2 h1 h2,
   fun t1 t2 h1 h2 => sanitizeMap_password_noninterference m t1 t2 h1 h2⟩

/-- Witness for the amended C4 at a concrete argument mapping. -/
theorem sanitize_redaction_amended_witness :
    assocGet (sanitizeMap [("token", JsValue.vStr "tok123"), ("owner", JsValue.vStr "me")])
      "token" = some (.vStr "[REDACTED]") ∧
    assocGet (sanitizeMap [("token", JsValue.vStr "tok123"), ("owner", JsValue.vStr "me")])
      "owner" = some (.vStr "me") := by
  constructor
  · exact (sanitize_redaction_amended
      [("token", JsValue.vStr "tok123"), ("owner", JsValue.vStr "me")]).1
      (JsValue.vStr "tok123") rfl rfl
  · rw [(sanitize_redaction_amended
      [("token", JsValue.vStr "tok123"), ("owner", JsValue.vStr "me")]).2.2.2.1
      "owner" (by decide) (by decide) (by decide)]
    rfl

/-! ### Claim C10 -/

/-- C10: `sanitizeArgs` passes an absent argument object through, returns a
fresh record in which only `content` (and only when truthy with length over
200), `token` and `password` (only when truthy) can differ from the input,
leaves every other top-level field — including a `files` array with its
nested per-file `content` entries — untouched, and the dispatcher invokes
the handler (and issues upstream requests) from the original, unredacted
arguments while only the logged record carries the sanitized copy. -/
theorem sanitizeArgs_frame (w : World) (name : String) (args : Option ArgMap)
    (m : ArgMap) :
    sanitizeArgs none = none ∧
    sanitizeArgs (some m) = some (sanitizeMap m) ∧
    (∀ k, k ≠ "content" → k ≠ "token" → k ≠ "password" →
       assocGet (sanitizeMap m) k = assocGet m k) ∧
    (∀ fl, assocGet m "files" = some fl → assocGet (sanitizeMap m) "files" = some fl) ∧
    (∀ k, assocGet (sanitizeMap m) k ≠ assocGet m k →
       (k = "content" ∧ ∃ c, assocGet m "content" = some c ∧ contentTooLong c = true) ∨
       (k = "token" ∧ ∃ t, assocGet m "token" = some t ∧ truthy t = true) ∨
       (k = "password" ∧ ∃ t, assocGet m "password" = some t ∧ truthy t = true)) ∧
    (handleCallTool w name args).calls = (runTool w name args).2 ∧
    (handleCallTool w name args).record.args = sanitizeArgs args := by
  refine ⟨rfl, rfl, fun k h1 h2 h3 => sanitizeMap_get_other m k h1 h2 h3, ?_, ?_, ?_, ?_⟩
  · intro fl hg
    rw [sanitizeMap_get_other m "files" (by decide) (by decide) (by decide)]
    exact hg
  · intro k hne
    by_cases h1 : k = "content"
    · subst h1
      left
      refine ⟨rfl, ?_⟩
      cases hg : assocGet m "content" with
      | none =>
        exfalso
        exact hne (sanitizeMap_get_content_id m
          (by intro c hc; rw [hg] at hc; cases hc))
      | some c =>
        by_cases hcl : contentTooLong c = true
        · exact ⟨c, rfl, hcl⟩
        · exfalso
          refine hne (sanitizeMap_get_content_id m ?_)
          intro c2 hc2
          rw [hg] at hc2
          injection hc2 with he
          subst he
          simpa using hcl
    · by_cases h2 : k = "token"
      · subst h2
        right; left
        refine ⟨rfl, ?_⟩
        cases hg : assocGet m "token" with
        | none =>
          exfalso
          exact hne (sanitizeMap_get_token_id m
            (by intro t ht; rw [hg] at ht; cases ht))
        | some t =>
          by_cases htr : truthy t = true
          · exact ⟨t, rfl, htr⟩
          · exfalso
            refine hne (sanitizeMap_get_token_id m ?_)
            intro t2 ht2
            rw [hg] at ht2
            injection ht2 with he
            subst he
            simpa using htr
      · by_cases h3 : k = "password"
        · subst h3
          right; right
          refine ⟨rfl, ?_⟩
          cases hg : assocGet m "password" with
          | none =>
            exfalso
            exact hne (sanitizeMap_get_password_id m
              (by intro t ht; rw [hg] at ht; cases ht))
          | some t =>
            by_cases htr : truthy t = true
            · exact ⟨t, rfl, htr⟩
            · exfalso
              refine hne (sanitizeMap_get_password_id m ?_)
              intro t2 ht2
              rw [hg] at ht2
              injection ht2 with he
              subst he
              simpa using htr
        · exact absurd (sanitizeMap_get_other m k h1 h2 h3) hne
  · rcases hr : runTool w name args with ⟨res, calls2⟩
    unfold handleCallTool
    rw [hr]
    cases res <;> rfl
  · rcases hr : runTool w name args with ⟨res, calls2⟩
    unfold handleCallTool
    rw [hr]
    cases res <;> rfl

/-- Witness for C10: under a long `content` argument the sanitized record
logs the length indicator while the upstream request body built by the
handler still carries the original content. -/
theorem sanitizeArgs_frame_witness :
    (handleCallTool wEx "github_create_or_update_file"
        (some [("owner", JsValue.vStr "o"), ("repo", JsValue.vStr "r"),
               ("path", JsValue.vStr "p"),
               ("content", JsValue.vStr (String.mk (List.replicate 201 'a'))),
               ("message", JsValue.vStr "msg")])).calls =
      (runTool wEx "github_create_or_update_file"
        (some [("owner", JsValue.vStr "o"), ("repo", JsValue.vStr "r"),
               ("path", JsValue.vStr "p"),
               ("content", JsValue.vStr (String.mk (List.replicate 201 'a'))),
               ("message", JsValue.vStr "msg")])).2 ∧
    assocGet (sanitizeMap [("owner", JsValue.vStr "o"), ("repo", JsValue.vStr "r"),
               ("path", JsValue.vStr "p"),
               ("content", JsValue.vStr (String.mk (List.replicate 201 'a'))),
               ("message", JsValue.vStr "msg")]) "content" =
      some (JsValue.vStr "[201 chars]") ∧
    (runTool wEx "github_create_or_update_file"
        (some [("owner", JsValue.vStr "o"), ("repo", JsValue.vStr "r"),
               ("path", JsValue.vStr "p"),
               ("content", JsValue.vStr (String.mk (List.replicate 201 'a'))),
               ("message", JsValue.vStr "msg")])).2 =
      [{ endpoint := "/repos/o/r/contents/p", method := "PUT",
         body := some (.vObj [("message", .vStr "msg"),
           ("content", .vStr (String.mk (List.replicate 201 'a'))),
           ("branch", .vStr "main")]) }] := by
  refine ⟨(sanitizeArgs_frame wEx "github_create_or_update_file" _ []).2.2.2.2.2.1, ?_, ?_⟩
  · rfl
  · rfl

/-! ### Claim C1 -/

/-- C1: for every operation name and argument mapping (and every behavior
of the injected environment), the call-tool handler produces exactly one
outcome envelope — either the success shape or the failure shape, never
both, and never an uncaught exception (the handler is a total function into
`DispatchOut`; every handler rejection is consumed by the `catch` branch). -/
theorem dispatcher_total_outcome (w : World) (name : String) (args : Option ArgMap) :
    (isSuccessEnvelope (handleCallTool w name args).envelope ∧
      ¬ isFailureEnvelope (handleCallTool w name args).envelope) ∨
    (isFailureEnvelope (handleCallTool w name args).envelope ∧
      ¬ isSuccessEnvelope (handleCallTool w name args).envelope) := by
  unfold isSuccessEnvelope isFailureEnvelope
  rcases hr : runTool w name args with ⟨res, calls2⟩
  unfold handleCallTool
  rw [hr]
  cases res with
  | ok r =>
    left
    refine ⟨⟨rfl, jsonStringify r, rfl⟩, ?_⟩
    intro hfail
    exact Option.noConfusion hfail.1
  | error msg =>
    right
    refine ⟨⟨rfl, msg, rfl⟩, ?_⟩
    intro hsucc
    exact Option.noConfusion hsucc.1

/-! ### Claim C2 -/

/-- C2: an operation name outside the registered catalog is dispatched to
the `default` branch, which throws before any handler runs: the outcome is
the failure envelope `Error: Unknown tool: <name>` with the error flag set,
and no upstream request is issued. -/
theorem dispatcher_unknown_tool (w : World) (name : String) (args : Option ArgMap)
    (h : name ∉ toolNames) :
    runTool w name args = (.error ("Unknown tool: " ++ name), []) ∧
    (handleCallTool w name args).envelope =
      { content := [{ type := "text", text := "Error: Unknown tool: " ++ name }],
        isError := some true } ∧
    (handleCallTool w name args).calls = [] := by
  simp only [toolNames, List.mem_cons, List.not_mem_nil, or_false, not_or] at h
  obtain ⟨h1, h2, h3, h4, h5, h6, h7, h8, h9, h10, h11, h12, h13, h14, h15, h16, h17,
    h18, h19, h20, h21, h22, h23, h24, h25, h26⟩ := h
  have hrun : runTool w name args = (.error ("Unknown tool: " ++ name), []) := by
    unfold runTool
    rw [if_neg h1, if_neg h2, if_neg h3, if_neg h4, if_neg h5, if_neg h6, if_neg h7,
      if_neg h8, if_neg h9, if_neg h10, if_neg h11, if_neg h12, if_neg h13, if_neg h14,
      if_neg h15, if_neg h16, if_neg h17, if_neg h18, if_neg h19, if_neg h20, if_neg h21,
      if_neg h22, if_neg h23, if_neg h24, if_neg h25, if_neg h26]
  have htext : "Error: " ++ ("Unknown tool: " ++ name) = "Error: Unknown tool: " ++ name := by
    rw [← String.append_assoc]
    rfl
  refine ⟨hrun, ?_, ?_⟩
  · unfold handleCallTool
    rw [hrun]
    simp only []
    rw [htext]
  · unfold handleCallTool
    rw [hrun]

/-- Witness for C2 at the concrete unknown operation `nonexistent_op`. -/
theorem dispatcher_unknown_tool_witness :
    runTool wEx "nonexistent_op" none = (.error ("Unknown tool: " ++ "nonexistent_op"), []) ∧
    (handleCallTool wEx "nonexistent_op" none).envelope =
      { content := [{ type := "text", text := "Error: Unknown tool: " ++ "nonexistent_op" }],
        isError := some true } ∧
    (handleCallTool wEx "nonexistent_op" none).calls = [] :=
  dispatcher_unknown_tool wEx "nonexistent_op" none (by decide)

/-! ### Claim C3 -/

/-- C3: both outcome branches use the single-text content shape: a
fulfilled handler result is serialized as
`{content: [{type:'text', text: JSON.stringify(result)}]}` with no error
flag, a caught error as `{content: [{type:'text', text: 'Error: <msg>'}]}`
with `isError` set. -/
theorem outcome_envelope_shape (w : World) (name : String) (args : Option ArgMap) :
    (∀ r, (runTool w name args).1 = .ok r →
       (handleCallTool w name args).envelope =
         { content := [{ type := "text", text := jsonStringify r }], isError := none }) ∧
    (∀ msg, (runTool w name args).1 = .error msg →
       (handleCallTool w name args).envelope =
         { content := [{ type := "text", text := "Error: " ++ msg }],
           isError := some true }) := by
  constructor
  · intro r hok
    rcases hr : runTool w name args with ⟨res, calls2⟩
    rw [hr] at hok
    unfold handleCallTool
    rw [hr]
    cases res with
    | ok a =>
      have ha : a = r := by
        have : Except.ok (ε := String) a = .ok r := hok
        injection this
      subst ha
      rfl
    | error e => exact Except.noConfusion hok
  · intro msg herr
    rcases hr : runTool w name args with ⟨res, calls2⟩
    rw [hr] at herr
    unfold handleCallTool
    rw [hr]
    cases res with
    | ok a => exact Except.noConfusion herr
    | error e =>
      have he : e = msg := by
        have : Except.error (α := JsValue) e = .error msg := herr
        injection this
      subst he
      rfl

/-- Witness for C3: a fulfilled `/user` lookup and a missing-credential
failure, at concrete environments. -/
theorem outcome_envelope_shape_witness :
    (handleCallTool wEx "github_get_user" none).envelope =
      { content := [{ type := "text", text := jsonStringify userObjEx }],
        isError := none } ∧
    (handleCallTool wNoToken "github_get_user" none).envelope =
      { content := [TextItem.mk "text"
          ("Error: " ++ "GITHUB_TOKEN environment variable is not set")],
        isError := some true } :=
  ⟨(outcome_envelope_shape wEx "github_get_user" none).1 userObjEx rfl,
   (outcome_envelope_shape wNoToken "github_get_user" none).2
     "GITHUB_TOKEN environment variable is not set" rfl⟩

/-! ### Claim C8 -/

/-- C8: the call-start record always carries the operation name, the
timestamp and the sanitized arguments — but its session identifier is the
fixed string `unknown` for every call, because the dispatcher's call site
`logToolCall(name, args)` omits the `sessionId` argument; the record never
contains the identifier of the session the call belongs to. -/
theorem callStartRecord_fields (w : World) (name : String) (args : Option ArgMap) :
    (handleCallTool w name args).record =
      { toolName := name, timestamp := w.now, sessionId := "unknown",
        args := sanitizeArgs args } := by
  rcases hr : runTool w name args with ⟨res, calls2⟩
  unfold handleCallTool
  rw [hr]
  cases res <;> rfl

/-! ### Claim C9 -/

/-- C9 is false as stated: the user lookup can *fulfill* with `null` (an
upstream 200 whose body parses to JSON `null`); the property read
`user.login` then throws inside the `try`, so `githubVerifyToken` returns
the `{valid: false, error: <TypeError message>}` shape even though the
lookup succeeded — its `valid` field is `false`, not `true`. -/
theorem githubVerifyToken_cex :
    (githubGetUser wNullUser).1 = .ok .vNull ∧
    (githubVerifyToken wNullUser).1 =
      .vObj [("valid", .vBool false),
             ("error", .vStr "Cannot read properties of null reading login")] ∧
    jsGetProp (githubVerifyToken wNullUser).1 "valid" = .ok (.vBool false) :=
  ⟨rfl, rfl, rfl⟩

/-- C9 (amended): `githubVerifyToken` never rejects (its whole body sits
inside `try`/`catch`); when the user lookup fulfills with a value whose
`login`, `name`, `email` and `avatar_url` property reads succeed — any
non-`null`, non-`undefined` value, in particular any user object — it
returns `{valid: true, user: {login, name, email, avatar_url}}` built from
those reads; when the lookup rejects, or fulfills with `null`/`undefined`
so that the first property read throws inside the `try`, it returns
`{valid: false, error: <message>}`; and the `github_verify_token`
operation always produces a success envelope (error flag never set). -/
theorem githubVerifyToken_conditional (w : World) (args : Option ArgMap) :
    (∀ u l n e a, (githubGetUser w).1 = .ok u →
       jsGetProp u "login" = .ok l → jsGetProp u "name" = .ok n →
       jsGetProp u "email" = .ok e → jsGetProp u "avatar_url" = .ok a →
       (githubVerifyToken w).1 =
         .vObj [("valid", .vBool true),
                ("user", .vObj [("login", l), ("name", n), ("email", e),
                                ("avatar_url", a)])]) ∧
    (∀ msg, (githubGetUser w).1 = .error msg →
       (githubVerifyToken w).1 =
         .vObj [("valid", .vBool false), ("error", .vStr msg)]) ∧
    (∀ u msg, (githubGetUser w).1 = .ok u → jsGetProp u "login" = .error msg →
       (githubVerifyToken w).1 =
         .vObj [("valid", .vBool false), ("error", .vStr msg)]) ∧
    (handleCallTool w "github_verify_token" args).envelope.isError = none ∧
    isSuccessEnvelope (handleCallTool w "github_verify_token" args).envelope := by
  refine ⟨?_, ?_, ?_, rfl, ⟨rfl, jsonStringify (githubVerifyToken w).1, rfl⟩⟩
  · intro u l n e2 a2 hu hl hn he2 ha
    rcases hr : githubGetUser w with ⟨res, calls2⟩
    rw [hr] at hu
    unfold githubVerifyToken
    rw [hr]
    cases res with
    | error msg => exact Except.noConfusion hu
    | ok uu =>
      have huu : uu = u := by injection hu
      subst huu
      cases uu with
      | vNull => exact Except.noConfusion hl
      | vUndefined => exact Except.noConfusion hl
      | vBool b =>
        injection hl with hl2
        injection hn with hn2
        injection he2 with he3
        injection ha with ha2
        subst hl2 hn2 he3 ha2
        rfl
      | vNum num =>
        injection hl with hl2
        injection hn with hn2
        injection he2 with he3
        injection ha with ha2
        subst hl2 hn2 he3 ha2
        rfl
      | vStr s =>
        injection hl with hl2
        injection hn with hn2
        injection he2 with he3
        injection ha with ha2
        subst hl2 hn2 he3 ha2
        rfl
      | vArr xs =>
        injection hl with hl2
        injection hn with hn2
        injection he2 with he3
        injection ha with ha2
        subst hl2 hn2 he3 ha2
        rfl
      | vObj fs =>
        injection hl with hl2
        injection hn with hn2
        injection he2 with he3
        injection ha with ha2
        subst hl2 hn2 he3 ha2
        rfl
  · intro msg hu
    rcases hr : githubGetUser w with ⟨res, calls2⟩
    rw [hr] at hu
    unfold githubVerifyToken
    rw [hr]
    cases res with
    | ok uu => exact Except.noConfusion hu
    | error m2 =>
      have hm : m2 = msg := by injection hu
      subst hm
      rfl
  · intro u msg hu hl
    rcases hr : githubGetUser w with ⟨res, calls2⟩
    rw [hr] at hu
    unfold githubVerifyToken
    rw [hr]
    cases res with
    | error m2 => exact Except.noConfusion hu
    | ok uu =>
      have huu : uu = u := by injection hu
      subst huu
      cases uu with
      | vNull =>
        have hm : ("Cannot read properties of null reading " ++ "login") = msg := by
          injection hl
        subst hm
        rfl
      | vUndefined =>
        have hm : ("Cannot read properties of undefined reading " ++ "login") = msg := by
          injection hl
        subst hm
        rfl
      | vBool b => exact Except.noConfusion hl
      | vNum num => exact Except.noConfusion hl
      | vStr s => exact Except.noConfusion hl
      | vArr xs => exact Except.noConfusion hl
      | vObj fs => exact Except.noConfusion hl

/-- Witness for the amended C9: a lookup fulfilled with a user object, a
rejected lookup (missing credential), and a lookup fulfilled with `null`,
at concrete environments. -/
theorem githubVerifyToken_conditional_witness :
    (githubVerifyToken wEx).1 =
      .vObj [("valid", .vBool true),
             ("user", .vObj [("login", .vStr "octocat"),
                             ("name", .vStr "The Octocat"), ("email", .vNull),
                             ("avatar_url", .vStr "https://example.invalid/a.png")])] ∧
    (githubVerifyToken wNoToken).1 =
      .vObj [("valid", .vBool false),
             ("error", .vStr "GITHUB_TOKEN environment variable is not set")] ∧
    (githubVerifyToken wNullUser).1 =
      .vObj [("valid", .vBool false),
             ("error", .vStr "Cannot read properties of null reading login")] :=
  ⟨(githubVerifyToken_conditional wEx none).1 userObjEx (.vStr "octocat")
     (.vStr "The Octocat") .vNull (.vStr "https://example.invalid/a.png")
     rfl rfl rfl rfl rfl,
   (githubVerifyToken_conditional wNoToken none).2.1
     "GITHUB_TOKEN environment variable is not set" rfl,
   (githubVerifyToken_conditional wNullUser none).2.2.1 .vNull
     "Cannot read properties of null reading login" rfl rfl⟩

/-! ### Claim C7 -/

/-- C7: `githubRequest` satisfies the injected-collaborator contract: a
missing credential fails with the fixed message without issuing any HTTP
request; a 204 response returns the fixed `{success: true}` sentinel (not a
body parse) after exactly one request; a non-2xx, non-204 response fails
with the upstream's message; every other response returns the parsed JSON
body. -/
theorem githubRequest_contract (w : World) (endpoint method : String)
    (body : Option JsValue) :
    (w.token = "" →
       githubRequest w endpoint method body =
         (.error "GITHUB_TOKEN environment variable is not set", [])) ∧
    (w.token ≠ "" → (w.fetch endpoint method body).status = 204 →
       githubRequest w endpoint method body =
         (.ok noContentValue, [FetchCall.mk endpoint method body])) ∧
    (w.token ≠ "" → (w.fetch endpoint method body).status ≠ 204 →
       ¬ (200 ≤ (w.fetch endpoint method body).status ∧
           (w.fetch endpoint method body).status < 300) →
       githubRequest w endpoint method body =
         (upstreamFailureResult (w.fetch endpoint method body),
          [FetchCall.mk endpoint method body]) ∧
       ∃ msg, upstreamFailureResult (w.fetch endpoint method body) = .error msg) ∧
    (w.token ≠ "" → (w.fetch endpoint method body).status ≠ 204 →
       200 ≤ (w.fetch endpoint method body).status ∧
         (w.fetch endpoint method body).status < 300 →
       githubRequest w endpoint method body =
         ((w.fetch endpoint method body).body, [FetchCall.mk endpoint method body])) := by
  refine ⟨?_, ?_, ?_, ?_⟩
  · intro h
    unfold githubRequest
    rw [if_pos h]
  · intro h1 h2
    simp [githubRequest, if_neg h1, h2, noContentValue]
  · intro h1 h2 h3
    constructor
    · simp only [githubRequest, if_neg h1]
      rw [if_neg h2, if_pos h3]
      unfold upstreamFailureResult
      cases hb : (w.fetch endpoint method body).body with
      | ok v => cases jsGetProp v "message" <;> rfl
      | error e => rfl
    · unfold upstreamFailureResult
      cases hb : (w.fetch endpoint method body).body with
      | ok v =>
        cases hgp : jsGetProp v "message" with
        | error e => exact ⟨e, rfl⟩
        | ok msgv => exact ⟨_, rfl⟩
      | error e => exact ⟨_, rfl⟩
  · intro h1 h2 h3
    simp only [githubRequest, if_neg h1]
    rw [if_neg h2, if_neg (not_not_intro h3)]

/-- Witness for C7 covering all four contract branches at concrete
environments. -/
theorem githubRequest_contract_witness :
    githubRequest wNoToken "/user" "GET" none =
      (.error "GITHUB_TOKEN environment variable is not set", []) ∧
    githubRequest w204 "/x" "DELETE" none =
      (.ok noContentValue, [FetchCall.mk "/x" "DELETE" none]) ∧
    githubRequest w404 "/missing" "GET" none =
      (upstreamFailureResult (w404.fetch "/missing" "GET" none),
       [FetchCall.mk "/missing" "GET" none]) ∧
    githubRequest wEx "/user" "GET" none =
      ((wEx.fetch "/user" "GET" none).body, [FetchCall.mk "/user" "GET" none]) := by
  refine ⟨?_, ?_, ?_, ?_⟩
  · exact (githubRequest_contract wNoToken "/user" "GET" none).1 rfl
  · exact (githubRequest_contract w204 "/x" "DELETE" none).2.1 (by decide) rfl
  · exact ((githubRequest_contract w404 "/missing" "GET" none).2.2.1 (by decide)
      (by decide) (by decide)).1
  · exact (githubRequest_contract wEx "/user" "GET" none).2.2.2 (by decide) (by decide)
      (by decide)

/-! ### Session-table invariants -/

theorem assocKeys_map_replAt {β : Type} (m : List (String × β)) (k : String) (v : β) :
    assocKeys (m.map (replAt k v)) = assocKeys m := by
  unfold assocKeys
  rw [List.map_map]
  apply List.map_congr_left
  intro p _
  obtain ⟨k2, v2⟩ := p
  by_cases h : k2 = k <;> simp [replAt, Function.comp, h]

theorem mem_assocKeys_set {β : Type} (m : List (String × β)) (k : String) (v : β)
    (k2 : String) (h : k2 ∈ assocKeys (assocSet m k v)) : k2 ∈ assocKeys m ∨ k2 = k := by
  by_cases hh : assocHas m k = true
  · rw [assocSet_of_has m k v hh, assocKeys_map_replAt] at h
    exact Or.inl h
  · rw [assocSet_of_not_has m k v (by simpa using hh)] at h
    unfold assocKeys at h
    rw [List.map_append] at h
    rcases List.mem_append.mp h with h2 | h2
    · exact Or.inl h2
    · exact Or.inr (by simpa using h2)

/-- Every identifier the POST handler inserts comes from `randomUUID()`,
which never yields the empty string; the table therefore never holds an
empty key, which justifies the invariant hypothesis of the session
theorems. -/
theorem postMcp_preserves_nonempty_keys (table : SessionTable) (hdr : Option String)
    (fresh : String) (b : Binding) (hf : fresh ≠ "")
    (he : "" ∉ assocKeys table) :
    "" ∉ assocKeys (postMcp table hdr fresh b).table := by
  have hnew : "" ∉ assocKeys (assocSet table fresh b) := by
    intro hmem
    rcases mem_assocKeys_set table fresh b "" hmem with h2 | h2
    · exact he h2
    · exact hf h2.symm
  cases hdr with
  | none => exact hnew
  | some sid =>
    simp only [postMcp]
    by_cases hs : sid ≠ ""
    · rw [if_pos hs]
      cases hg : assocGet table sid with
      | some bd => exact he
      | none => exact hnew
    · rw [if_neg hs]
      exact hnew

/-! ### Claim C5 -/

/-- C5: a POST presenting a known (truthy) session identifier reuses the
recorded server/transport binding, leaves the table unchanged and echoes
the same identifier; a POST with an absent or unrecognized identifier
inserts a freshly generated identifier (modelled as the injected
`randomUUID()` output, assumed distinct from the active ones) bound to a
new server/transport pair and echoes that identifier. -/
theorem postMcp_session_resolution (table : SessionTable) (hdr : Option String)
    (fresh : String) (b : Binding) (hempty : "" ∉ assocKeys table)
    (hfresh : fresh ∉ assocKeys table) :
    (∀ sid bd, hdr = some sid → assocGet table sid = some bd →
       postMcp table hdr fresh b =
         { table := table, header := sid, binding := bd, created := false }) ∧
    ((hdr = none ∨ ∃ sid, hdr = some sid ∧ assocGet table sid = none) →
       postMcp table hdr fresh b =
         { table := assocSet table fresh b, header := fresh, binding := b,
           created := true } ∧
       assocGet (assocSet table fresh b) fresh = some b ∧
       assocHas table fresh = false) := by
  constructor
  · intro sid bd hh hg
    subst hh
    have hne : sid ≠ "" := by
      intro he2
      subst he2
      exact hempty (assocGet_mem_keys table "" bd hg)
    simp only [postMcp]
    rw [if_pos hne, hg]
  · intro hcase
    have hhasf : assocHas table fresh = false := by
      cases hb2 : assocHas table fresh with
      | false => rfl
      | true => exact absurd (assocHas_mem_keys table fresh hb2) hfresh
    refine ⟨?_, assocGet_set_self table fresh b, hhasf⟩
    rcases hcase with hnone | ⟨sid, hsome, hget⟩
    · subst hnone
      rfl
    · subst hsome
      simp only [postMcp]
      by_cases hs : sid ≠ ""
      · rw [if_pos hs, hget]
      · rw [if_neg hs]

/-- Witness for C5: reuse of a known identifier and creation for an
unknown one, at a concrete table. -/
theorem postMcp_session_resolution_witness :
    postMcp [("sid-1", Binding.mk 1 1)] (some "sid-1") "fresh-9" (Binding.mk 2 2) =
      { table := [("sid-1", Binding.mk 1 1)], header := "sid-1",
        binding := Binding.mk 1 1, created := false } ∧
    postMcp [("sid-1", Binding.mk 1 1)] (some "sid-7") "fresh-9" (Binding.mk 2 2) =
      { table := assocSet [("sid-1", Binding.mk 1 1)] "fresh-9" (Binding.mk 2 2),
        header := "fresh-9", binding := Binding.mk 2 2, created := true } := by
  constructor
  · exact (postMcp_session_resolution [("sid-1", Binding.mk 1 1)] (some "sid-1")
      "fresh-9" (Binding.mk 2 2) (by decide) (by decide)).1 "sid-1" (Binding.mk 1 1)
      rfl rfl
  · exact ((postMcp_session_resolution [("sid-1", Binding.mk 1 1)] (some "sid-7")
      "fresh-9" (Binding.mk 2 2) (by decide) (by decide)).2
      (Or.inr ⟨"sid-7", rfl, rfl⟩)).1

/-! ### Claim C6 -/

/-- C6: DELETE /mcp responds 200 and removes the binding exactly when the
presented identifier is in the session table, and responds 404 leaving the
table unchanged otherwise; terminating the same identifier twice yields 200
then 404, and a subsequent POST with the removed identifier creates a new
session. -/
theorem deleteMcp_session_termination (table : SessionTable) (sid : String)
    (hempty : "" ∉ assocKeys table) :
    (assocHas table sid = true →
       deleteMcp table (some sid) = (200, assocDelete table sid) ∧
       assocHas (assocDelete table sid) sid = false ∧
       deleteMcp (assocDelete table sid) (some sid) = (404, assocDelete table sid) ∧
       (∀ fresh b, (postMcp (assocDelete table sid) (some sid) fresh b).created = true)) ∧
    (assocHas table sid = false → deleteMcp table (some sid) = (404, table)) ∧
    deleteMcp table none = (404, table) := by
  refine ⟨?_, ?_, rfl⟩
  · intro hhas
    have hne : sid ≠ "" := by
      intro he2
      subst he2
      exact hempty (assocHas_mem_keys table "" hhas)
    refine ⟨?_, assocHas_delete_self table sid, ?_, ?_⟩
    · simp only [deleteMcp]
      rw [if_pos ⟨hne, hhas⟩]
    · simp only [deleteMcp]
      rw [if_neg (fun hc => by
        have h2 := hc.2
        rw [assocHas_delete_self table sid] at h2
        exact Bool.noConfusion h2)]
    · intro fresh b
      simp only [postMcp]
      rw [if_pos hne, assocGet_delete_self table sid]
  · intro hhas
    simp only [deleteMcp]
    rw [if_neg (fun hc => by
      have h2 := hc.2
      rw [hhas] at h2
      exact Bool.noConfusion h2)]

/-- Witness for C6: deleting a live identifier, deleting it again, and
deleting a never-issued identifier, at a concrete table. -/
theorem deleteMcp_session_termination_witness :
    deleteMcp [("sid-1", Binding.mk 1 1)] (some "sid-1") =
      (200, assocDelete [("sid-1", Binding.mk 1 1)] "sid-1") ∧
    deleteMcp (assocDelete [("sid-1", Binding.mk 1 1)] "sid-1") (some "sid-1") =
      (404, assocDelete [("sid-1", Binding.mk 1 1)] "sid-1") ∧
    deleteMcp [("sid-1", Binding.mk 1 1)] (some "sid-9") =
      (404, [("sid-1", Binding.mk 1 1)]) := by
  have h := deleteMcp_session_termination [("sid-1", Binding.mk 1 1)] "sid-1" (by decide)
  have h9 := deleteMcp_session_termination [("sid-1", Binding.mk 1 1)] "sid-9" (by decide)
  exact ⟨(h.1 rfl).1, (h.1 rfl).2.2.1, h9.2.1 rfl⟩

end GithubMcp
